import Mathlib

/-!
Shallow embedding of the chess rules engine in `src/main.py`.

Conventions of the embedding:
* Python integers become `Int`; board coordinates are pairs `Int × Int`
  written `(row, col)`.
* The 8×8 grid of `optional<Piece>` becomes a total function
  `Int × Int → Option Piece`; only in-bounds keys are ever written.
* The `while`-loops that walk a sliding piece's path become a
  fuel-indexed recursion returning `Option Bool`: `some b` is the value
  the Python loop produces, `none` means the loop has not finished
  within `fuel` iterations (so `∀ fuel, … = none` models divergence).
* Python's class dispatch on piece kind becomes a tagged variant
  `PieceKind` and a match in `Piece.can_move`.
-/

namespace ChessEngine

/-- `Color` enum from `src/main.py`. -/
inductive Color where
  | WHITE
  | BLACK
deriving DecidableEq

/-- The piece kinds: one per `Piece` subclass in `src/main.py`. -/
inductive PieceKind where
  | king
  | queen
  | rook
  | bishop
  | knight
  | pawn
deriving DecidableEq

/-- A piece: its kind (the Python subclass) and its `color` field. -/
structure Piece where
  kind : PieceKind
  color : Color
deriving DecidableEq

/-- The board: `self.board`, an 8×8 grid of `optional<Piece>`, embedded as a
total function on integer coordinates. -/
structure Board where
  grid : Int × Int → Option Piece

/-- A coordinate is on the board when both components are in `[0, 8)`. -/
abbrev inBounds (p : Int × Int) : Prop :=
  0 ≤ p.1 ∧ p.1 < 8 ∧ 0 ≤ p.2 ∧ p.2 < 8

/-- Modelled from the spec: `Board.get_piece` is called by the piece
predicates in `src/main.py` but is not defined under `src/`; per the spec it
"returns the occupant or empty". A coordinate outside the 8×8 grid names no
square, hence holds no piece. -/
def Board.get_piece (b : Board) (p : Int × Int) : Option Piece :=
  if inBounds p then b.grid p else none

/-- Modelled from the spec: `Board.is_occupied` is called by the piece
predicates in `src/main.py` but is not defined under `src/`; per the spec it
is "true iff the square holds a piece". -/
def Board.is_occupied (b : Board) (p : Int × Int) : Bool :=
  (b.get_piece p).isSome

/-- The destination test shared verbatim by King, Queen, Rook, Bishop and
Knight in `src/main.py`:
`not board.is_occupied(end_pos) or board.get_piece(end_pos).color != self.color`. -/
def destinationOk (self : Piece) (b : Board) (e : Int × Int) : Bool :=
  !(b.is_occupied e) ||
    (match b.get_piece e with
     | some q => decide (q.color ≠ self.color)
     | none => true)

/-- The `while (current_row, current_col) != (end_row, end_col)` loop shared
verbatim by Queen, Rook and Bishop in `src/main.py`: step by `(dr, dc)` from
`(cr, cc)` toward `(er, ec)`; an occupied intermediate square yields
`some false` (the loop's early `return False`), reaching the destination
yields `some true` (the loop exits), and running out of fuel yields `none`
(the loop has not terminated). -/
def walkPath (b : Board) (dr dc er ec : Int) : Nat → Int → Int → Option Bool
  | fuel, cr, cc =>
    if cr = er ∧ cc = ec then some true
    else if b.is_occupied (cr, cc) then some false
    else
      match fuel with
      | 0 => none
      | f + 1 => walkPath b dr dc er ec f (cr + dr) (cc + dc)

/-- The step expression of Queen and Rook in `src/main.py`:
`0 if start == end else (1 if end > start else -1)`. -/
def stepOf (a b : Int) : Int :=
  if a = b then 0 else if b > a then 1 else -1

/-- The step expression of Bishop in `src/main.py`:
`1 if end > start else -1` (no zero case). -/
def bstepOf (a b : Int) : Int :=
  if b > a then 1 else -1

/-- The common tail of the three sliding pieces in `src/main.py`: walk the
path from the square one step beyond `s`; on an occupied intermediate square
return `False`; once the walk exits, apply the shared destination test. -/
def slideBody (self : Piece) (b : Board) (s e : Int × Int) (dr dc : Int)
    (fuel : Nat) : Option Bool :=
  match walkPath b dr dc e.1 e.2 fuel (s.1 + dr) (s.2 + dc) with
  | none => none
  | some false => some false
  | some true => some (destinationOk self b e)

/-- `King.can_move` from `src/main.py`. -/
def kingCanMove (self : Piece) (b : Board) (s e : Int × Int) : Bool :=
  if (e.1 - s.1).natAbs ≤ 1 ∧ (e.2 - s.2).natAbs ≤ 1 then
    destinationOk self b e
  else false

/-- `Queen.can_move` from `src/main.py`. -/
def queenCanMove (self : Piece) (b : Board) (s e : Int × Int)
    (fuel : Nat) : Option Bool :=
  if s.1 = e.1 ∨ s.2 = e.2 ∨ (e.1 - s.1).natAbs = (e.2 - s.2).natAbs then
    slideBody self b s e (stepOf s.1 e.1) (stepOf s.2 e.2) fuel
  else some false

/-- `Rook.can_move` from `src/main.py`. -/
def rookCanMove (self : Piece) (b : Board) (s e : Int × Int)
    (fuel : Nat) : Option Bool :=
  if s.1 = e.1 ∨ s.2 = e.2 then
    slideBody self b s e (stepOf s.1 e.1) (stepOf s.2 e.2) fuel
  else some false

/-- `Bishop.can_move` from `src/main.py`. Note the steps come from
`bstepOf`, which is never zero. -/
def bishopCanMove (self : Piece) (b : Board) (s e : Int × Int)
    (fuel : Nat) : Option Bool :=
  if (e.1 - s.1).natAbs = (e.2 - s.2).natAbs then
    slideBody self b s e (bstepOf s.1 e.1) (bstepOf s.2 e.2) fuel
  else some false

/-- `Knight.can_move` from `src/main.py`. -/
def knightCanMove (self : Piece) (b : Board) (s e : Int × Int) : Bool :=
  if ((e.1 - s.1).natAbs = 2 ∧ (e.2 - s.2).natAbs = 1) ∨
      ((e.1 - s.1).natAbs = 1 ∧ (e.2 - s.2).natAbs = 2) then
    destinationOk self b e
  else false

/-- `Pawn.can_move` from `src/main.py`. -/
def pawnCanMove (self : Piece) (b : Board) (s e : Int × Int) : Bool :=
  let row_step : Int := if self.color = Color.WHITE then 1 else -1
  if s.2 = e.2 then
    if s.1 + row_step = e.1 then
      !(b.is_occupied e)
    else if s.1 + 2 * row_step = e.1 ∧
        ((self.color = Color.WHITE ∧ s.1 = 1) ∨
         (self.color = Color.BLACK ∧ s.1 = 6)) then
      !(b.is_occupied (s.1 + row_step, s.2)) && !(b.is_occupied e)
    else false
  else
    if (s.2 - e.2).natAbs = 1 ∧ s.1 + row_step = e.1 then
      match b.get_piece e with
      | some q => decide (q.color ≠ self.color)
      | none => false
    else false

/-- Dispatch of `piece.can_move(board, start, end)` over the piece's class.
King, Knight and Pawn always terminate, so they return `some`; the sliding
pieces thread the loop fuel. -/
def Piece.can_move (self : Piece) (b : Board) (s e : Int × Int)
    (fuel : Nat) : Option Bool :=
  match self.kind with
  | .king => some (kingCanMove self b s e)
  | .queen => queenCanMove self b s e fuel
  | .rook => rookCanMove self b s e fuel
  | .bishop => bishopCanMove self b s e fuel
  | .knight => some (knightCanMove self b s e)
  | .pawn => some (pawnCanMove self b s e)

/-- A single assignment `self.board[r][c] = v`. -/
def setSquare (g : Int × Int → Option Piece) (pos : Int × Int)
    (v : Option Piece) : Int × Int → Option Piece :=
  fun q => if q = pos then v else g q

/-- `Board.setup_pieces` from `src/main.py`: the exact sequence of grid
assignments, in source order — rank 0 and the row-1 pawn loop for White,
then rank 7 and the row-6 pawn loop for Black. No other square is written. -/
def Board.setup_pieces (b : Board) : Board :=
  let g := b.grid
  let g := setSquare g (0, 0) (some ⟨.rook, .WHITE⟩)
  let g := setSquare g (0, 1) (some ⟨.knight, .WHITE⟩)
  let g := setSquare g (0, 2) (some ⟨.bishop, .WHITE⟩)
  let g := setSquare g (0, 3) (some ⟨.queen, .WHITE⟩)
  let g := setSquare g (0, 4) (some ⟨.king, .WHITE⟩)
  let g := setSquare g (0, 5) (some ⟨.bishop, .WHITE⟩)
  let g := setSquare g (0, 6) (some ⟨.knight, .WHITE⟩)
  let g := setSquare g (0, 7) (some ⟨.rook, .WHITE⟩)
  let g := (List.range 8).foldl
    (fun g i => setSquare g (1, (i : Int)) (some ⟨.pawn, .WHITE⟩)) g
  let g := setSquare g (7, 0) (some ⟨.rook, .BLACK⟩)
  let g := setSquare g (7, 1) (some ⟨.knight, .BLACK⟩)
  let g := setSquare g (7, 2) (some ⟨.bishop, .BLACK⟩)
  let g := setSquare g (7, 3) (some ⟨.queen, .BLACK⟩)
  let g := setSquare g (7, 4) (some ⟨.king, .BLACK⟩)
  let g := setSquare g (7, 5) (some ⟨.bishop, .BLACK⟩)
  let g := setSquare g (7, 6) (some ⟨.knight, .BLACK⟩)
  let g := setSquare g (7, 7) (some ⟨.rook, .BLACK⟩)
  let g := (List.range 8).foldl
    (fun g i => setSquare g (6, (i : Int)) (some ⟨.pawn, .BLACK⟩)) g
  ⟨g⟩

/-- `Board.is_valid_move` from `src/main.py`: bounds check, start occupancy,
the occupant's `can_move`, then the defensive same-color destination check.
A `none` from a sliding piece's walk propagates (the call never returns). -/
def Board.is_valid_move (b : Board) (s e : Int × Int)
    (fuel : Nat) : Option Bool :=
  if ¬(inBounds s ∧ inBounds e) then some false
  else
    match b.grid s with
    | none => some false
    | some piece =>
      match piece.can_move b s e fuel with
      | none => none
      | some false => some false
      | some true =>
        match b.grid e with
        | some target =>
          if target.color = piece.color then some false else some true
        | none => some true

/-- `Board.move_piece` from `src/main.py`: on a valid move, assign the
destination square from the source square and then clear the source square
(in that order), returning `True`; otherwise leave the grid alone and return
`False`. -/
def Board.move_piece (b : Board) (s e : Int × Int)
    (fuel : Nat) : Option (Board × Bool) :=
  match b.is_valid_move s e fuel with
  | none => none
  | some true =>
    let g := setSquare b.grid e (b.grid s)
    let g := setSquare g s none
    some (⟨g⟩, true)
  | some false => some (b, false)

/-- `Board.__init__` from `src/main.py`: an all-`None` grid followed by
`setup_pieces`. -/
def Board.init : Board :=
  Board.setup_pieces ⟨fun _ => none⟩

/-- `Game` from `src/main.py`: a board, `current_turn` and `game_over`. -/
structure Game where
  board : Board
  current_turn : Color
  game_over : Bool

/-- `Game.start_game` from `src/main.py`: `setup_pieces` on the existing
board, turn back to WHITE, `game_over` cleared. -/
def Game.start_game (g : Game) : Game :=
  { board := g.board.setup_pieces
    current_turn := Color.WHITE
    game_over := false }

/-- `Game.move` from `src/main.py`: the body is `pass` — no state change
and no returned signal (`None`, embedded as `none`). -/
def Game.move (g : Game) (player : Color) (s e : Int × Int) :
    Game × Option Bool :=
  (g, none)

/-- `Game.end_game` from `src/main.py`: set `game_over` and return the
confirmation string. -/
def Game.end_game (g : Game) : Game × String :=
  ({ g with game_over := true }, "Game over.")

/-- A board holding a single white bishop on square `(0, 0)`. -/
def loneBishopBoard : Board :=
  ⟨fun q => if q = ((0 : Int), (0 : Int)) then some ⟨.bishop, .WHITE⟩ else none⟩

/-- The board produced by applying the legal knight development
`(0,1) → (2,2)` to the freshly constructed board (fuel 8 is ample for a
knight move, which walks no path). -/
def boardAfterKnight : Board :=
  match Board.init.move_piece (0, 1) (2, 2) 8 with
  | some (b, _) => b
  | none => Board.init

/-- The number of loop iterations the sliding walk needs for an aligned
pair: the Chebyshev distance between the squares. -/
def stepsBetween (s e : Int × Int) : Nat :=
  max (e.1 - s.1).natAbs (e.2 - s.2).natAbs

end ChessEngine

namespace ChessEngine

lemma is_occupied_out_of_bounds (b : Board) (p : Int × Int)
    (h : ¬ inBounds p) : b.is_occupied p = false := by
  simp [Board.is_occupied, Board.get_piece, h]

lemma walk_neg_diag_none (b : Board) :
    ∀ (fuel : Nat) (cr cc : Int), cr < 0 →
      walkPath b (-1) (-1) 0 0 fuel cr cc = none := by
  intro fuel
  induction fuel with
  | zero =>
    intro cr cc hcr
    have hne : ¬(cr = (0 : Int) ∧ cc = (0 : Int)) := by omega
    have hocc : b.is_occupied (cr, cc) = false :=
      is_occupied_out_of_bounds b (cr, cc) (by simp only [inBounds]; omega)
    rw [walkPath]
    simp [hne, hocc]
  | succ f ih =>
    intro cr cc hcr
    have hne : ¬(cr = (0 : Int) ∧ cc = (0 : Int)) := by omega
    have hocc : b.is_occupied (cr, cc) = false :=
      is_occupied_out_of_bounds b (cr, cc) (by simp only [inBounds]; omega)
    rw [walkPath]
    simp only [hne, hocc, if_false, Bool.false_eq_true]
    exact ih (cr + -1) (cc + -1) (by omega)

end ChessEngine

namespace ChessEngine

lemma walk_blocked (b : Board) (dr dc er ec : Int) :
    ∀ (n : Nat), ∀ (cr cc : Int) (fuel : Nat), n ≤ fuel →
      b.is_occupied (cr + (n : Int) * dr, cc + (n : Int) * dc) = true →
      (∀ m : Nat, m ≤ n →
        ¬(cr + (m : Int) * dr = er ∧ cc + (m : Int) * dc = ec)) →
      walkPath b dr dc er ec fuel cr cc = some false := by
  intro n
  induction n with
  | zero =>
    intro cr cc fuel _ hocc havoid
    have h0 := havoid 0 (le_refl 0)
    simp only [Nat.cast_zero, zero_mul, add_zero] at hocc h0
    rw [walkPath.eq_def]
    simp [h0, hocc]
  | succ m ih =>
    intro cr cc fuel hf hocc havoid
    have h0 := havoid 0 (Nat.zero_le _)
    simp only [Nat.cast_zero, zero_mul, add_zero] at h0
    by_cases hcur : b.is_occupied (cr, cc) = true
    · rw [walkPath.eq_def]
      simp [h0, hcur]
    · obtain ⟨f, rfl⟩ : ∃ f, fuel = f + 1 := ⟨fuel - 1, by omega⟩
      rw [walkPath]
      simp only [h0, if_false, hcur, Bool.false_eq_true]
      apply ih (cr + dr) (cc + dc) f (by omega)
      · have e1 : cr + dr + (m : Int) * dr = cr + ((m + 1 : Nat) : Int) * dr := by
          push_cast
          ring
        have e2 : cc + dc + (m : Int) * dc = cc + ((m + 1 : Nat) : Int) * dc := by
          push_cast
          ring
        rw [e1, e2]
        exact hocc
      · intro j hj
        have e1 : cr + dr + (j : Int) * dr = cr + ((j + 1 : Nat) : Int) * dr := by
          push_cast
          ring
        have e2 : cc + dc + (j : Int) * dc = cc + ((j + 1 : Nat) : Int) * dc := by
          push_cast
          ring
        rw [e1, e2]
        exact havoid (j + 1) (by omega)

lemma queen_aligned_decomp (s e : Int × Int)
    (h : s.1 = e.1 ∨ s.2 = e.2 ∨ (e.1 - s.1).natAbs = (e.2 - s.2).natAbs) :
    e.1 = s.1 + (stepsBetween s e : Int) * stepOf s.1 e.1 ∧
    e.2 = s.2 + (stepsBetween s e : Int) * stepOf s.2 e.2 := by
  unfold stepsBetween stepOf
  rcases h with h | h | h <;> constructor <;> split_ifs <;> omega

lemma bishop_aligned_decomp (s e : Int × Int)
    (h : (e.1 - s.1).natAbs = (e.2 - s.2).natAbs) (hne : s.1 ≠ e.1) :
    e.1 = s.1 + (stepsBetween s e : Int) * bstepOf s.1 e.1 ∧
    e.2 = s.2 + (stepsBetween s e : Int) * bstepOf s.2 e.2 := by
  unfold stepsBetween bstepOf
  constructor <;> split_ifs <;> omega

lemma stepOf_eq_zero {a b : Int} (h : stepOf a b = 0) : a = b := by
  unfold stepOf at h
  split_ifs at h with h1 h2 <;> omega

lemma bstepOf_ne_zero (a b : Int) : bstepOf a b ≠ 0 := by
  unfold bstepOf
  split_ifs <;> omega

lemma slideBody_blocked (self : Piece) (b : Board) (s e : Int × Int)
    (dr dc : Int) (n k fuel : Nat)
    (hd1 : e.1 = s.1 + (n : Int) * dr) (hd2 : e.2 = s.2 + (n : Int) * dc)
    (hnz : ¬(dr = 0 ∧ dc = 0))
    (hk1 : 1 ≤ k) (hk2 : k < n) (hfuel : n ≤ fuel)
    (hocc : b.is_occupied (s.1 + (k : Int) * dr, s.2 + (k : Int) * dc) = true) :
    slideBody self b s e dr dc fuel = some false := by
  have hw : walkPath b dr dc e.1 e.2 fuel (s.1 + dr) (s.2 + dc) = some false := by
    apply walk_blocked b dr dc e.1 e.2 (k - 1) (s.1 + dr) (s.2 + dc) fuel (by omega)
    · have e1 : s.1 + dr + ((k - 1 : Nat) : Int) * dr = s.1 + (k : Int) * dr := by
        have hc : ((k - 1 : Nat) : Int) = (k : Int) - 1 := by omega
        rw [hc]
        ring
      have e2 : s.2 + dc + ((k - 1 : Nat) : Int) * dc = s.2 + (k : Int) * dc := by
        have hc : ((k - 1 : Nat) : Int) = (k : Int) - 1 := by omega
        rw [hc]
        ring
      rw [e1, e2]
      exact hocc
    · intro m hm hcon
      obtain ⟨hc1, hc2⟩ := hcon
      rw [hd1] at hc1
      rw [hd2] at hc2
      have key1 : ((n : Int) - 1 - (m : Int)) * dr = 0 := by
        linear_combination -hc1
      have key2 : ((n : Int) - 1 - (m : Int)) * dc = 0 := by
        linear_combination -hc2
      have hcast : (n : Int) - 1 - (m : Int) ≠ 0 := by omega
      rcases mul_eq_zero.mp key1 with hz | hz
      · exact hcast hz
      · rcases mul_eq_zero.mp key2 with hz2 | hz2
        · exact hcast hz2
        · exact hnz ⟨hz, hz2⟩
  unfold slideBody
  rw [hw]

end ChessEngine

namespace ChessEngine

/-- C6: for Queen, Rook and Bishop, `can_move` returns false whenever any
square strictly between an aligned `start`/`end` pair (the squares the
source walks: `start + k·step` for `1 ≤ k < stepsBetween`) is occupied,
regardless of destination occupancy; and any move outside the piece's
alignment — row/column for the Rook, diagonal for the Bishop, either for
the Queen — returns false. `fuel` bounds the loop iterations; the walk of a
blocked aligned path finishes within `stepsBetween` iterations. -/
theorem sliding_path_clearance_and_alignment (b : Board) (self : Piece)
    (s e : Int × Int) :
    (∀ fuel k : Nat,
      (s.1 = e.1 ∨ s.2 = e.2 ∨ (e.1 - s.1).natAbs = (e.2 - s.2).natAbs) →
      1 ≤ k → k < stepsBetween s e → stepsBetween s e ≤ fuel →
      b.is_occupied
        (s.1 + (k : Int) * stepOf s.1 e.1, s.2 + (k : Int) * stepOf s.2 e.2) = true →
      queenCanMove self b s e fuel = some false) ∧
    (¬(s.1 = e.1 ∨ s.2 = e.2 ∨ (e.1 - s.1).natAbs = (e.2 - s.2).natAbs) →
      ∀ fuel, queenCanMove self b s e fuel = some false) ∧
    (∀ fuel k : Nat, (s.1 = e.1 ∨ s.2 = e.2) →
      1 ≤ k → k < stepsBetween s e → stepsBetween s e ≤ fuel →
      b.is_occupied
        (s.1 + (k : Int) * stepOf s.1 e.1, s.2 + (k : Int) * stepOf s.2 e.2) = true →
      rookCanMove self b s e fuel = some false) ∧
    (¬(s.1 = e.1 ∨ s.2 = e.2) →
      ∀ fuel, rookCanMove self b s e fuel = some false) ∧
    (∀ fuel k : Nat, (e.1 - s.1).natAbs = (e.2 - s.2).natAbs →
      1 ≤ k → k < stepsBetween s e → stepsBetween s e ≤ fuel →
      b.is_occupied
        (s.1 + (k : Int) * bstepOf s.1 e.1, s.2 + (k : Int) * bstepOf s.2 e.2) = true →
      bishopCanMove self b s e fuel = some false) ∧
    ((e.1 - s.1).natAbs ≠ (e.2 - s.2).natAbs →
      ∀ fuel, bishopCanMove self b s e fuel = some false) := by
  refine ⟨?_, ?_, ?_, ?_, ?_, ?_⟩
  · intro fuel k hal hk1 hk2 hfuel hocc
    unfold queenCanMove
    rw [if_pos hal]
    obtain ⟨hd1, hd2⟩ := queen_aligned_decomp s e hal
    apply slideBody_blocked self b s e _ _ (stepsBetween s e) k fuel hd1 hd2
      ?_ hk1 hk2 hfuel hocc
    rintro ⟨hz1, hz2⟩
    have h1 := stepOf_eq_zero hz1
    have h2 := stepOf_eq_zero hz2
    have hzero : stepsBetween s e = 0 := by
      unfold stepsBetween
      omega
    omega
  · intro hal fuel
    unfold queenCanMove
    rw [if_neg hal]
  · intro fuel k hal hk1 hk2 hfuel hocc
    unfold rookCanMove
    rw [if_pos hal]
    have hal3 : s.1 = e.1 ∨ s.2 = e.2 ∨ (e.1 - s.1).natAbs = (e.2 - s.2).natAbs := by
      rcases hal with h | h
      · exact Or.inl h
      · exact Or.inr (Or.inl h)
    obtain ⟨hd1, hd2⟩ := queen_aligned_decomp s e hal3
    apply slideBody_blocked self b s e _ _ (stepsBetween s e) k fuel hd1 hd2
      ?_ hk1 hk2 hfuel hocc
    rintro ⟨hz1, hz2⟩
    have h1 := stepOf_eq_zero hz1
    have h2 := stepOf_eq_zero hz2
    have hzero : stepsBetween s e = 0 := by
      unfold stepsBetween
      omega
    omega
  · intro hal fuel
    unfold rookCanMove
    rw [if_neg hal]
  · intro fuel k hal hk1 hk2 hfuel hocc
    unfold bishopCanMove
    rw [if_pos hal]
    have hne : s.1 ≠ e.1 := by
      intro hcon
      have hzero : stepsBetween s e = 0 := by
        unfold stepsBetween
        omega
      omega
    obtain ⟨hd1, hd2⟩ := bishop_aligned_decomp s e hal hne
    apply slideBody_blocked self b s e _ _ (stepsBetween s e) k fuel hd1 hd2
      ?_ hk1 hk2 hfuel hocc
    rintro ⟨hz1, _⟩
    exact bstepOf_ne_zero s.1 e.1 hz1
  · intro hal fuel
    unfold bishopCanMove
    rw [if_neg hal]

/-- Witness for C6: on the freshly set-up board the White rook's move
`(0,0) → (0,4)` is row-aligned but blocked by the knight on `(0,1)`
(`k = 1`), so `Rook.can_move` returns false. -/
theorem sliding_path_clearance_witness :
    Board.init.is_occupied
      ((0 : Int) + ((1 : Nat) : Int) * stepOf 0 0,
       (0 : Int) + ((1 : Nat) : Int) * stepOf 0 4) = true ∧
    rookCanMove ⟨PieceKind.rook, Color.WHITE⟩ Board.init (0, 0) (0, 4) 8 =
      some false :=
  ⟨by decide,
    (sliding_path_clearance_and_alignment Board.init
        ⟨PieceKind.rook, Color.WHITE⟩ (0, 0) (0, 4)).2.2.1 8 1
      (Or.inl rfl) (by decide) (by decide) (by decide) (by decide)⟩

end ChessEngine

namespace ChessEngine

/-- C5: full characterization of `Pawn.can_move`. A straight advance is
legal iff same column, one step forward (White toward increasing rows,
Black toward decreasing rows) and the destination unoccupied; a double
advance is legal iff same column, two steps forward, start on the home row
(1 for White, 6 for Black) and both intermediate and destination squares
unoccupied; a diagonal move is legal iff the column differs by exactly 1,
the destination is one step forward and holds an opposite-color piece — so
a diagonal move onto an empty square is never legal. -/
theorem pawn_move_characterization (b : Board) (c : Color) (s e : Int × Int) :
    pawnCanMove ⟨PieceKind.pawn, c⟩ b s e = true ↔
      ((s.2 = e.2 ∧ e.1 = s.1 + (if c = Color.WHITE then 1 else -1) ∧
          b.is_occupied e = false) ∨
       (s.2 = e.2 ∧ e.1 = s.1 + 2 * (if c = Color.WHITE then 1 else -1) ∧
          s.1 = (if c = Color.WHITE then (1 : Int) else 6) ∧
          b.is_occupied (s.1 + (if c = Color.WHITE then 1 else -1), s.2) = false ∧
          b.is_occupied e = false) ∨
       ((s.2 - e.2).natAbs = 1 ∧
          e.1 = s.1 + (if c = Color.WHITE then 1 else -1) ∧
          ∃ q, b.get_piece e = some q ∧ q.color ≠ c)) := by
  rcases hq : b.get_piece e with _ | q
  all_goals cases c <;>
      simp only [pawnCanMove, hq] <;>
      split_ifs <;>
      simp_all <;>
      try omega
  all_goals
    constructor
    · intro hL
      exact Or.inr ⟨by omega, hL.1, hL.2⟩
    · rintro (⟨hE, _⟩ | ⟨_, hx, hy⟩)
      · exact absurd hE (by omega)
      · exact ⟨hx, hy⟩

end ChessEngine

namespace ChessEngine

lemma destinationOk_self (b : Board) (p : Piece) (s : Int × Int)
    (h : b.get_piece s = some p) : destinationOk p b s = false := by
  simp [destinationOk, Board.is_occupied, h]

/-- C7: for every piece kind, when `start` holds the mover's own piece the
zero-delta move `can_move(board, start, start)` never returns true: every
piece either rejects it outright or (for the Bishop) fails to return at
all, and for the King in particular the distance check passes but the
own-color destination test rejects. -/
theorem zero_delta_never_accepted (b : Board) (p : Piece) (s : Int × Int)
    (fuel : Nat) (h : b.get_piece s = some p) :
    p.can_move b s s fuel ≠ some true := by
  have hdest : destinationOk p b s = false := destinationOk_self b p s h
  obtain ⟨k, c⟩ := p
  cases k
  case king =>
    simp [Piece.can_move, kingCanMove, hdest]
  case queen =>
    simp only [Piece.can_move, queenCanMove]
    rw [if_pos (Or.inl trivial)]
    unfold slideBody
    rcases hw : walkPath b (stepOf s.1 s.1) (stepOf s.2 s.2) s.1 s.2 fuel
        (s.1 + stepOf s.1 s.1) (s.2 + stepOf s.2 s.2) with _ | bv
    · simp
    · cases bv <;> simp [hdest]
  case rook =>
    simp only [Piece.can_move, rookCanMove]
    rw [if_pos (Or.inl trivial)]
    unfold slideBody
    rcases hw : walkPath b (stepOf s.1 s.1) (stepOf s.2 s.2) s.1 s.2 fuel
        (s.1 + stepOf s.1 s.1) (s.2 + stepOf s.2 s.2) with _ | bv
    · simp
    · cases bv <;> simp [hdest]
  case bishop =>
    simp only [Piece.can_move, bishopCanMove]
    rw [if_pos (by simp)]
    unfold slideBody
    rcases hw : walkPath b (bstepOf s.1 s.1) (bstepOf s.2 s.2) s.1 s.2 fuel
        (s.1 + bstepOf s.1 s.1) (s.2 + bstepOf s.2 s.2) with _ | bv
    · simp
    · cases bv <;> simp [hdest]
  case knight =>
    simp [Piece.can_move, knightCanMove]
  case pawn =>
    cases c <;> simp [Piece.can_move, pawnCanMove]

/-- Witness for C7: the freshly set-up board holds the White king on
`(0,4)`, and its zero-delta move is not accepted. -/
theorem zero_delta_never_accepted_witness :
    Board.init.get_piece (0, 4) = some ⟨PieceKind.king, Color.WHITE⟩ ∧
    Piece.can_move ⟨PieceKind.king, Color.WHITE⟩ Board.init (0, 4) (0, 4) 3 ≠
      some true :=
  ⟨by decide,
    zero_delta_never_accepted Board.init ⟨PieceKind.king, Color.WHITE⟩ (0, 4) 3
      (by decide)⟩

end ChessEngine

namespace ChessEngine

lemma lone_bishop_can_move_none (fuel : Nat) :
    Piece.can_move ⟨PieceKind.bishop, Color.WHITE⟩ loneBishopBoard
      (0, 0) (0, 0) fuel = none := by
  simp only [Piece.can_move, bishopCanMove]
  rw [if_pos (by simp)]
  unfold slideBody
  have hb : bstepOf (0 : Int) (0 : Int) = -1 := rfl
  have hw : walkPath loneBishopBoard (bstepOf 0 0) (bstepOf 0 0) 0 0 fuel
      (0 + bstepOf 0 0) (0 + bstepOf 0 0) = none := by
    rw [hb]
    exact walk_neg_diag_none loneBishopBoard fuel (0 + -1) (0 + -1) (by omega)
  rw [hw]

/-- C8: refuted — the Bishop's path walk for a zero-delta input never
reaches the destination: its steps are always `±1`, so from
`start + (-1, -1)` the walk can never hit `end = start` and, with every
probed square unoccupied (here a lone bishop on `(0,0)`), the loop never
exits. `Bishop.can_move(board, (0,0), (0,0))` fails to produce a result for
every iteration bound, so not every core operation terminates. -/
theorem bishop_zero_delta_walk_diverges (fuel : Nat) :
    Piece.can_move ⟨PieceKind.bishop, Color.WHITE⟩ loneBishopBoard
      (0, 0) (0, 0) fuel = none :=
  lone_bishop_can_move_none fuel

/-- C1: refuted at one input family — `is_valid_move((0,0), (0,0))` on a
board holding only a white bishop on `(0,0)` never returns: it reaches the
bishop's `can_move`, whose zero-delta path walk diverges (modelling the
Python loop that never meets its exit condition), so `is_valid_move` does
not return a boolean for every board and coordinate pair. -/
theorem is_valid_move_no_result_on_bishop_zero_delta (fuel : Nat) :
    loneBishopBoard.is_valid_move (0, 0) (0, 0) fuel = none := by
  have h := lone_bishop_can_move_none fuel
  unfold Board.is_valid_move
  rw [if_neg (by norm_num [inBounds])]
  have hg : loneBishopBoard.grid (0, 0) = some ⟨PieceKind.bishop, Color.WHITE⟩ := rfl
  rw [hg]
  simp only [h]

end ChessEngine

namespace ChessEngine

/-- C2: for every in-bounds position, `is_occupied` is true exactly when
the square holds a piece, and `get_piece` returns the occupant when the
square is occupied and empty otherwise. (Both queries are modelled from the
spec: `src/main.py` calls but does not define them.) -/
theorem occupancy_queries_spec (b : Board) (p : Int × Int) (h : inBounds p) :
    (b.is_occupied p = true ↔ ∃ q, b.grid p = some q) ∧
    (∀ q, b.grid p = some q → b.get_piece p = some q) ∧
    (b.grid p = none → b.get_piece p = none) := by
  unfold Board.is_occupied Board.get_piece
  rw [if_pos h]
  refine ⟨?_, fun q hq => hq, fun hn => hn⟩
  simp [Option.isSome_iff_exists]

/-- Witness for C2: square `(0,0)` of the freshly set-up board. -/
theorem occupancy_queries_spec_witness :
    inBounds ((0 : Int), (0 : Int)) ∧
    ((Board.init.is_occupied (0, 0) = true ↔ ∃ q, Board.init.grid (0, 0) = some q) ∧
     (∀ q, Board.init.grid (0, 0) = some q → Board.init.get_piece (0, 0) = some q) ∧
     (Board.init.grid (0, 0) = none → Board.init.get_piece (0, 0) = none)) :=
  ⟨by decide, occupancy_queries_spec Board.init (0, 0) (by decide)⟩

/-- C3: refuted — `setup_pieces` does not clear the squares it does not
assign. After the legal knight development `(0,1) → (2,2)` on a fresh
board, calling `setup_pieces` leaves the White knight on `(2,2)` (row 2 is
never written) while also re-creating a knight on `(0,1)`, so the board is
not the standard starting position and `start_game` does not restore the
initial layout. -/
theorem setup_pieces_leaves_midboard_stale :
    (Board.init.move_piece (0, 1) (2, 2) 8).map Prod.snd = some true ∧
    boardAfterKnight.grid (2, 2) = some ⟨PieceKind.knight, Color.WHITE⟩ ∧
    boardAfterKnight.setup_pieces.grid (2, 2) =
      some ⟨PieceKind.knight, Color.WHITE⟩ ∧
    boardAfterKnight.setup_pieces.grid (0, 1) =
      some ⟨PieceKind.knight, Color.WHITE⟩ := by
  refine ⟨by decide, by decide, by decide, by decide⟩

lemma valid_move_start_occupied (b : Board) (s e : Int × Int) (fuel : Nat)
    (h : b.is_valid_move s e fuel = some true) : ∃ q, b.grid s = some q := by
  unfold Board.is_valid_move at h
  split_ifs at h
  · rcases hg : b.grid s with _ | piece
    · rw [hg] at h
      simp at h
    · exact ⟨piece, rfl⟩
  · simp at h

lemma valid_move_ne (b : Board) (s e : Int × Int) (fuel : Nat)
    (h : b.is_valid_move s e fuel = some true) : s ≠ e := by
  intro he
  subst he
  unfold Board.is_valid_move at h
  split_ifs at h
  · rcases hg : b.grid s with _ | piece
    · rw [hg] at h
      simp at h
    · rw [hg] at h
      dsimp only at h
      rcases hcm : piece.can_move b s s fuel with _ | bv
      · rw [hcm] at h
        simp at h
      · cases bv
        · rw [hcm] at h
          simp at h
        · rw [hcm] at h
          simp only [if_pos rfl] at h
          simp at h
  · simp at h

end ChessEngine

namespace ChessEngine

/-- C4: when `is_valid_move` returns true, `move_piece` returns true and
mutates exactly the two squares involved — the start square is cleared and
the end square receives the piece previously at start (discarding any
captured occupant) — leaving every other square unchanged; when
`is_valid_move` returns false, `move_piece` returns false and the grid is
unchanged. -/
theorem move_piece_frame (b : Board) (s e : Int × Int) (fuel : Nat) :
    (b.is_valid_move s e fuel = some false →
      b.move_piece s e fuel = some (b, false)) ∧
    (b.is_valid_move s e fuel = some true →
      ∃ b2 : Board, b.move_piece s e fuel = some (b2, true) ∧
        (∃ q, b.grid s = some q) ∧
        b2.grid s = none ∧
        b2.grid e = b.grid s ∧
        ∀ r : Int × Int, r ≠ s → r ≠ e → b2.grid r = b.grid r) := by
  constructor
  · intro h
    unfold Board.move_piece
    rw [h]
  · intro h
    have hne := valid_move_ne b s e fuel h
    have hocc := valid_move_start_occupied b s e fuel h
    refine ⟨⟨setSquare (setSquare b.grid e (b.grid s)) s none⟩, ?_, hocc, ?_, ?_, ?_⟩
    · unfold Board.move_piece
      rw [h]
    · simp [setSquare]
    · simp [setSquare, Ne.symm hne]
    · intro r hr1 hr2
      simp [setSquare, hr1, hr2]

/-- Witness for C4: the double pawn advance `(1,4) → (3,4)` on the freshly
set-up board is valid, and applying it clears `(1,4)`, puts the White pawn
on `(3,4)` and leaves every other square unchanged. -/
theorem move_piece_frame_witness :
    Board.init.is_valid_move (1, 4) (3, 4) 8 = some true ∧
    (∃ b2 : Board, Board.init.move_piece (1, 4) (3, 4) 8 = some (b2, true) ∧
      (∃ q, Board.init.grid (1, 4) = some q) ∧
      b2.grid (1, 4) = none ∧
      b2.grid (3, 4) = Board.init.grid (1, 4) ∧
      ∀ r : Int × Int, r ≠ ((1 : Int), (4 : Int)) → r ≠ ((3 : Int), (4 : Int)) →
        b2.grid r = Board.init.grid r) :=
  ⟨by decide, (move_piece_frame Board.init (1, 4) (3, 4) 8).2 (by decide)⟩

/-- C9: `Game.move` as present in the source is a stub (`pass`): for every
claimed player and coordinates it leaves the board, `current_turn` and
`game_over` unchanged and returns no success/failure signal. -/
theorem game_move_is_stub (g : Game) (player : Color) (s e : Int × Int) :
    (Game.move g player s e).1.board = g.board ∧
    (Game.move g player s e).1.current_turn = g.current_turn ∧
    (Game.move g player s e).1.game_over = g.game_over ∧
    (Game.move g player s e).2 = none :=
  ⟨rfl, rfl, rfl, rfl⟩

/-- C10: `start_game` sets the turn to WHITE, clears `game_over` and
applies `setup_pieces` to the board; `end_game` unconditionally sets
`game_over` and returns the terminal confirmation string, touching nothing
else; and `game_over` is preserved by `move`, so once set it stays true
until the next `start_game`. -/
theorem game_lifecycle (g : Game) (player : Color) (s e : Int × Int) :
    (Game.start_game g).current_turn = Color.WHITE ∧
    (Game.start_game g).game_over = false ∧
    (Game.start_game g).board = g.board.setup_pieces ∧
    (Game.end_game g).1.game_over = true ∧
    (Game.end_game g).2 = "Game over." ∧
    (Game.end_game g).1.board = g.board ∧
    (Game.end_game g).1.current_turn = g.current_turn ∧
    (Game.move g player s e).1.game_over = g.game_over :=
  ⟨rfl, rfl, rfl, rfl, rfl, rfl, rfl, rfl⟩

end ChessEngine
